import Mathlib

set_option linter.unusedVariables false

/-!
Verification development for the er-aws-msk Terraform plan validators.

The repository contains two validators sharing the same rule set:
the pipeline-hook validator (`hooks/post_plan.py`, batched inventory
lookups via `hooks_lib/aws_api.py`, plus a Kafka-version rule) and the
standalone validator (`validate_plan.py`, per-id lookups signalled by
exceptions, no version rule).  Both are embedded below; definitions are
translated from the Python source.  Python dictionaries returned by the
inventory are modelled as records of optional fields (mirroring
`dict.get`), Python `set` values as insertion-ordered duplicate-free
lists (Python set iteration order is unspecified; we fix the canonical
first-insertion order, and model `set.pop` as taking the first element —
the source only relies on "some arbitrary element"), and uncaught Python
exceptions as an `Except` error value.
-/

/-- A subnet record returned by the EC2 inventory (a dict in the source);
both fields are optional, mirroring `dict.get("SubnetId")` /
`"VpcId" not in data`. -/
structure SubnetRec where
  subnetId : Option String
  vpcId : Option String
  deriving DecidableEq

/-- A security-group record returned by the EC2 inventory. -/
structure SGRec where
  groupId : Option String
  vpcId : Option String
  deriving DecidableEq

/-- The inventory interface consumed by the validators: batched calls
(`hooks_lib/aws_api.py`: `get_subnets`, `get_security_groups`,
`get_kafka_versions`) and per-id calls (`validate_plan.py` `AWSApi`:
`get_subnet`, `get_security_group`).  A per-id lookup answering `none`
models `describe_subnets` / `describe_security_groups` returning an
empty record list, upon which the source raises a not-found error. -/
structure Inventory where
  getSubnets : List String → List SubnetRec
  getSecurityGroups : List String → List SGRec
  getKafkaVersions : List String
  getSubnet : String → Option SubnetRec
  getSecurityGroup : String → Option SGRec

/-- An uncaught Python exception escaping `validate`:
`keyError` is `set().pop()` on an empty set (`vpc_ids.pop()`),
`indexError` is `broker_node_group_info[0]` on an empty list, and
`subnetNotFound id` is the `SubnetNotFoundError` raised by
`AWSApi.get_security_group` in `validate_plan.py`, which the caller only
guards with `except SecurityGroupNotFoundError` and therefore never
catches. -/
inductive Fault where
  | keyError
  | indexError
  | subnetNotFound (id : String)
  deriving DecidableEq

/-- One broker placement record of the plan: `client_subnets` and
`security_groups` of `broker_node_group_info[i]`. -/
structure BrokerInfo where
  clientSubnets : List String
  securityGroups : List String
  deriving DecidableEq

/-- The post-apply attribute snapshot `change.after` of a resource
change, restricted to the keys the validators read. -/
structure After where
  kafkaVersion : String
  brokerNodeGroupInfo : List BrokerInfo
  deriving DecidableEq

/-- The `change` object of a resource change (`None` in the source is
modelled by wrapping this in `Option`). -/
structure ChangeDetail where
  actions : List String
  after : Option After
  deriving DecidableEq

/-- One entry of `plan.resource_changes`. -/
structure ResourceChange where
  rtype : String
  change : Option ChangeDetail
  deriving DecidableEq

/-- The `Action.ActionCreate` enumeration value. -/
def actionCreate : String := "create"

/-- Renders an optional string the way a Python f-string renders the
result of `dict.get`: the string itself, or `None` when absent. -/
def pyOptStr : Option String → String
  | some s => s
  | none => "None"

/-- A single-quote character, used by Python repr of strings inside a
set such as `Subnet(s) {...} not found`. -/
def pyQuote : String := String.singleton (Char.ofNat 39)

/-- Canonical rendering of a Python set of strings (Python iteration
order is unspecified; we render our canonical list order). -/
def pySetRepr (xs : List String) : String :=
  "\x7b" ++ String.intercalate ", " (xs.map (fun s => pyQuote ++ s ++ pyQuote)) ++ "\x7d"

/-- Adds an element to a duplicate-free list, modelling `set.add`. -/
def insertUnique (l : List String) (v : String) : List String :=
  if v ∈ l then l else l ++ [v]

/-- Models `set(xs)` as the duplicate-free list of first occurrences. -/
def pySet (xs : List String) : List String :=
  xs.foldl insertUnique []

/-- Models `set(req).difference({x for x in ret})`: the requested ids
whose `some`-wrapped form is not among the returned optional ids. -/
def pySetDiff (req : List String) (ret : List (Option String)) : List String :=
  (pySet req).filter (fun s => decide (some s ∉ ret))

/-- Violation message of the subnet-count check. -/
def subnetCountMsg : String := "At least 3 subnets are required"

/-- Aggregated missing-subnets violation of `hooks/post_plan.py`. -/
def subnetsNotFoundMsg (missing : List String) : String :=
  "Subnet(s) " ++ pySetRepr missing ++ " not found"

/-- Per-record missing-VPC-attribute violation for a subnet (both
validators; the hooks variant fills in `dict.get("SubnetId")`). -/
def vpcNotFoundSubnetMsg (s : String) : String :=
  "VpcId not found for subnet " ++ s

/-- Violation of the same-VPC check. -/
def sameVpcMsg : String := "All subnets must belong to the same VPC"

/-- Aggregated missing-security-groups violation of
`hooks/post_plan.py`. -/
def sgNotFoundMsg (missing : List String) : String :=
  "Security group(s) " ++ pySetRepr missing ++ " not found"

/-- Cross-VPC mismatch violation for a security group. -/
def sgMismatchMsg (s : String) : String :=
  "Security group " ++ s ++ " does not belong to the same VPC as the subnets"

/-- Per-record missing-VPC-attribute violation for a security group
(`validate_plan.py` only). -/
def vpcNotFoundSgMsg (s : String) : String :=
  "VpcId not found for security group " ++ s

/-- Message of `SubnetNotFoundError`, appended by the standalone subnet
rule when `get_subnet` raises. -/
def subnetNotExistMsg (s : String) : String :=
  "Subnet " ++ s ++ " does not exist"

/-- Retrieval-failure violation of the Kafka-version rule. -/
def couldNotRetrieveKafkaMsg : String :=
  "Could not retrieve available Kafka versions from AWS."

/-- First fixed piece of the invalid-Kafka-version message. -/
def invalidVersionPart1 : String := "Invalid Kafka version: " ++ pyQuote

/-- Second fixed piece of the invalid-Kafka-version message. -/
def invalidVersionPart2 : String := pyQuote ++ ". Available versions are: "

/-- The invalid-Kafka-version violation: names the proposed version and
comma-joins the supported versions in their enumeration order. -/
def invalidKafkaVersionMsg (kv : String) (vs : List String) : String :=
  invalidVersionPart1 ++ kv ++ invalidVersionPart2 ++ String.intercalate ", " vs

/-- The Kafka-version rule `MskPlanValidator._validate_kafka_version` of
`hooks/post_plan.py`, acting on the accumulated error list. -/
def validateKafkaVersion (inv : Inventory) (kv : String) (errors : List String) :
    List String :=
  if inv.getKafkaVersions = [] then errors ++ [couldNotRetrieveKafkaMsg]
  else if kv ∈ inv.getKafkaVersions then errors
  else errors ++ [invalidKafkaVersionMsg kv inv.getKafkaVersions]

/-- One step of the hooks subnet loop: a record without `VpcId` appends
a per-record violation, otherwise its VPC id joins the collected set. -/
def subnetStep (acc : List String × List String) (r : SubnetRec) :
    List String × List String :=
  match r.vpcId with
  | none => (acc.1 ++ [vpcNotFoundSubnetMsg (pyOptStr r.subnetId)], acc.2)
  | some v => (acc.1, insertUnique acc.2 v)

/-- The `for subnet in data` loop of the hooks subnet rule, threading
the error list and the collected VPC-id set. -/
def collectSubnetVpcIds (data : List SubnetRec) (errors : List String) :
    List String × List String :=
  data.foldl subnetStep (errors, [])

/-- Shared tail of both subnet rules: append the same-VPC violation when
more than one distinct VPC id was collected, then `vpc_ids.pop()` —
which raises `KeyError` when the collected set is empty. -/
def finishVpc : List String × List String → Except Fault (List String × Option String)
  | (errs, vpcs) =>
    match vpcs with
    | [] => Except.error Fault.keyError
    | v :: _ =>
      Except.ok ((if vpcs.length > 1 then errs ++ [sameVpcMsg] else errs), some v)

/-- `MskPlanValidator._validate_subnets` of `hooks/post_plan.py`:
count check, one batched lookup, aggregated missing-ids violation with
an early `return None`, per-record VPC collection, same-VPC check, and
`vpc_ids.pop()`. -/
def validateSubnets (inv : Inventory) (subnets : List String)
    (errors : List String) : Except Fault (List String × Option String) :=
  if subnets.length < 3 then Except.ok (errors ++ [subnetCountMsg], none)
  else if pySetDiff subnets ((inv.getSubnets subnets).map SubnetRec.subnetId) ≠ [] then
    Except.ok
      (errors ++
        [subnetsNotFoundMsg
          (pySetDiff subnets ((inv.getSubnets subnets).map SubnetRec.subnetId))],
        none)
  else finishVpc (collectSubnetVpcIds (inv.getSubnets subnets) errors)

/-- One step of the hooks security-group loop: `sg.get("VpcId") != vpc_id`
is true both for a differing VPC id and for an absent one, so either way
the mismatch violation is appended. -/
def sgStep (vpcId : String) (errs : List String) (sg : SGRec) : List String :=
  if sg.vpcId ≠ some vpcId then errs ++ [sgMismatchMsg (pyOptStr sg.groupId)]
  else errs

/-- `MskPlanValidator._validate_security_groups` of `hooks/post_plan.py`:
one batched lookup, aggregated missing-ids violation with an early
return, then the per-record VPC comparison. -/
def validateSecurityGroups (inv : Inventory) (sgs : List String) (vpcId : String)
    (errors : List String) : List String :=
  if pySetDiff sgs ((inv.getSecurityGroups sgs).map SGRec.groupId) ≠ [] then
    errors ++
      [sgNotFoundMsg (pySetDiff sgs ((inv.getSecurityGroups sgs).map SGRec.groupId))]
  else (inv.getSecurityGroups sgs).foldl (sgStep vpcId) errors

/-- Processing of one matching change by the hooks validator: version
rule first, then `broker_node_group_info[0]` (IndexError on an empty
list), the subnet rule, and — only when it produced a truthy VPC id
(neither `None` nor the empty string) — the security-group rule. -/
def hooksProcessChange (inv : Inventory) (a : After) (errors : List String) :
    Except Fault (List String) :=
  match a.brokerNodeGroupInfo with
  | [] => Except.error Fault.indexError
  | bi :: _ =>
    match validateSubnets inv bi.clientSubnets
        (validateKafkaVersion inv a.kafkaVersion errors) with
    | Except.error f => Except.error f
    | Except.ok (errors2, none) => Except.ok errors2
    | Except.ok (errors2, some v) =>
      if v = "" then Except.ok errors2
      else Except.ok (validateSecurityGroups inv bi.securityGroups v errors2)

/-- The filter `msk_instance_updates`: target resource type and a
create action on a present change object. -/
def isMskCreate (rc : ResourceChange) : Bool :=
  match rc.change with
  | some d => decide (rc.rtype = "aws_msk_cluster") && decide (actionCreate ∈ d.actions)
  | none => false

/-- `MskPlanValidator.msk_instance_updates` (identical in both
validators). -/
def mskInstanceUpdates (plan : List ResourceChange) : List ResourceChange :=
  plan.filter isMskCreate

/-- The `for u in self.msk_instance_updates` loop of the hooks
`validate`, threading the accumulated error list. -/
def hooksValidateLoop (inv : Inventory) (changes : List ResourceChange)
    (errors : List String) : Except Fault (List String) :=
  match changes with
  | [] => Except.ok errors
  | rc :: rest =>
    match rc.change with
    | none => hooksValidateLoop inv rest errors
    | some d =>
      match d.after with
      | none => hooksValidateLoop inv rest errors
      | some a =>
        match hooksProcessChange inv a errors with
        | Except.error f => Except.error f
        | Except.ok errors1 => hooksValidateLoop inv rest errors1

/-- `MskPlanValidator.validate` of `hooks/post_plan.py`: the final
outcome is `not self.errors` paired with the report itself. -/
def hooksValidate (inv : Inventory) (plan : List ResourceChange) :
    Except Fault (Bool × List String) :=
  match hooksValidateLoop inv (mskInstanceUpdates plan) [] with
  | Except.error f => Except.error f
  | Except.ok errors => Except.ok (errors.isEmpty, errors)

/-- One step of the standalone subnet loop (`validate_plan.py`):
`get_subnet` raising `SubnetNotFoundError` is caught and appended as a
violation; a resolved record without `VpcId` appends a per-record
violation; otherwise the VPC id joins the collected set. -/
def vpSubnetStep (inv : Inventory) (acc : List String × List String) (s : String) :
    List String × List String :=
  match inv.getSubnet s with
  | none => (acc.1 ++ [subnetNotExistMsg s], acc.2)
  | some r =>
    match r.vpcId with
    | none => (acc.1 ++ [vpcNotFoundSubnetMsg s], acc.2)
    | some v => (acc.1, insertUnique acc.2 v)

/-- `MskPlanValidator._validate_subnets` of `validate_plan.py`. -/
def vpValidateSubnets (inv : Inventory) (subnets : List String)
    (errors : List String) : Except Fault (List String × Option String) :=
  if subnets.length < 3 then Except.ok (errors ++ [subnetCountMsg], none)
  else finishVpc (subnets.foldl (vpSubnetStep inv) (errors, []))

/-- `MskPlanValidator._validate_security_groups` of `validate_plan.py`:
per-id lookups; `get_security_group` raises `SubnetNotFoundError` for a
missing group, which the `except SecurityGroupNotFoundError` clause does
not catch, so the fault escapes; a resolved record without `VpcId`
appends its own violation; a differing VPC id appends the mismatch. -/
def vpValidateSecurityGroups (inv : Inventory) (sgs : List String) (vpcId : String)
    (errors : List String) : Except Fault (List String) :=
  match sgs with
  | [] => Except.ok errors
  | sg :: rest =>
    match inv.getSecurityGroup sg with
    | none => Except.error (Fault.subnetNotFound sg)
    | some r =>
      match r.vpcId with
      | none => vpValidateSecurityGroups inv rest vpcId (errors ++ [vpcNotFoundSgMsg sg])
      | some v =>
        if v ≠ vpcId then
          vpValidateSecurityGroups inv rest vpcId (errors ++ [sgMismatchMsg sg])
        else vpValidateSecurityGroups inv rest vpcId errors

/-- Processing of one matching change by the standalone validator:
no version rule, otherwise the same orchestration as the hooks one. -/
def vpProcessChange (inv : Inventory) (a : After) (errors : List String) :
    Except Fault (List String) :=
  match a.brokerNodeGroupInfo with
  | [] => Except.error Fault.indexError
  | bi :: _ =>
    match vpValidateSubnets inv bi.clientSubnets errors with
    | Except.error f => Except.error f
    | Except.ok (errors2, none) => Except.ok errors2
    | Except.ok (errors2, some v) =>
      if v = "" then Except.ok errors2
      else vpValidateSecurityGroups inv bi.securityGroups v errors2

/-- The change loop of the standalone `validate`. -/
def vpValidateLoop (inv : Inventory) (changes : List ResourceChange)
    (errors : List String) : Except Fault (List String) :=
  match changes with
  | [] => Except.ok errors
  | rc :: rest =>
    match rc.change with
    | none => vpValidateLoop inv rest errors
    | some d =>
      match d.after with
      | none => vpValidateLoop inv rest errors
      | some a =>
        match vpProcessChange inv a errors with
        | Except.error f => Except.error f
        | Except.ok errors1 => vpValidateLoop inv rest errors1

/-- `MskPlanValidator.validate` of `validate_plan.py`. -/
def vpValidate (inv : Inventory) (plan : List ResourceChange) :
    Except Fault (Bool × List String) :=
  match vpValidateLoop inv (mskInstanceUpdates plan) [] with
  | Except.error f => Except.error f
  | Except.ok errors => Except.ok (errors.isEmpty, errors)

/-- Distinct VPC ids of the resolved subnet records carrying one, in
collection order. -/
def vpcIdsOf (data : List SubnetRec) : List String :=
  (data.filterMap SubnetRec.vpcId).foldl insertUnique []

example : pySet ["a", "b", "a"] = ["a", "b"] := by decide

example : pySetDiff ["a", "b"] [some "a"] = ["b"] := by decide

/-- An inventory in which every subnet resolves but no subnet record
carries a `VpcId`, and an empty supported-version set plays no role. -/
def invAllVpcMissing : Inventory where
  getSubnets := fun ids => ids.map (fun i => { subnetId := some i, vpcId := none })
  getSecurityGroups := fun _ => []
  getKafkaVersions := ["2.8.1"]
  getSubnet := fun i => some { subnetId := some i, vpcId := none }
  getSecurityGroup := fun _ => none

/-- C1: in every run of the Subnet Rule that collects an empty set of
VPC ids — here three requested subnets all resolve, but none of the
resolved records carries a VPC id — the claim requires the rule to
return absent; the code instead reaches `vpc_ids.pop()` on an empty set
and raises `KeyError`, in both the pipeline-hook variant
(`hooks/post_plan.py`) and the standalone variant (`validate_plan.py`).
This theorem evaluates both embedded rules at that failing input and
shows the uncaught fault. -/
theorem subnetRule_empty_vpc_set_raises :
    validateSubnets invAllVpcMissing ["subnet-1", "subnet-2", "subnet-3"] [] =
      Except.error Fault.keyError ∧
    vpValidateSubnets invAllVpcMissing ["subnet-1", "subnet-2", "subnet-3"] [] =
      Except.error Fault.keyError := ⟨rfl, rfl⟩

/-- An inventory for the standalone validator in which all subnets
resolve into one VPC but the referenced security group does not exist. -/
def invSgMissing : Inventory where
  getSubnets := fun ids => ids.map (fun i => { subnetId := some i, vpcId := some "vpc-123" })
  getSecurityGroups := fun _ => []
  getKafkaVersions := ["2.8.1"]
  getSubnet := fun i => some { subnetId := some i, vpcId := some "vpc-123" }
  getSecurityGroup := fun _ => none

/-- A single create change for an `aws_msk_cluster` with three subnets
and one security group. -/
def changeSgMissing : ResourceChange where
  rtype := "aws_msk_cluster"
  change := some
    { actions := ["create"]
      after := some
        { kafkaVersion := "2.8.1"
          brokerNodeGroupInfo := [{ clientSubnets := ["s1", "s2", "s3"]
                                    securityGroups := ["sg1"] }] } }

/-- The character data of an appended string is the appended data. -/
theorem strDataAppend (a b : String) : (a ++ b).data = a.data ++ b.data := by
  cases a; cases b; rfl

/-- The first character of an appended string is the first character of
its nonempty left part. -/
theorem headQAppend (a b : String) (c : Char) (h : a.data.head? = some c) :
    (a ++ b).data.head? = some c := by
  rw [strDataAppend]
  cases ha : a.data with
  | nil => rw [ha] at h; simp at h
  | cons x l => rw [ha] at h; simp_all

/-- The invalid-Kafka-version message always starts with an uppercase I. -/
theorem invalidMsgHead (kv : String) (vs : List String) :
    (invalidKafkaVersionMsg kv vs).data.head? = some 'I' := by
  unfold invalidKafkaVersionMsg
  exact headQAppend _ _ _ (headQAppend _ _ _ (headQAppend _ _ _ rfl))

/-- The invalid-version violation is a different string from the
retrieval-failure violation, whatever the proposed version and the
supported list. -/
theorem invalidMsg_ne_couldNot (kv : String) (vs : List String) :
    invalidKafkaVersionMsg kv vs ≠ couldNotRetrieveKafkaMsg := by
  intro h
  have h2 : (invalidKafkaVersionMsg kv vs).data.head? =
      couldNotRetrieveKafkaMsg.data.head? := by rw [h]
  rw [invalidMsgHead] at h2
  have hc : couldNotRetrieveKafkaMsg.data.head? = some 'C' := rfl
  rw [hc] at h2
  exact absurd h2 (by decide)

/-- The standalone missing-VPC-attribute violation for a security group
is a different string from the cross-VPC mismatch violation. -/
theorem vpcNotFoundSg_ne_mismatch (sg : String) :
    vpcNotFoundSgMsg sg ≠ sgMismatchMsg sg := by
  intro h
  have h2 : (vpcNotFoundSgMsg sg).data.head? = (sgMismatchMsg sg).data.head? := by
    rw [h]
  have hL : (vpcNotFoundSgMsg sg).data.head? = some 'V' := headQAppend _ _ _ rfl
  have hR : (sgMismatchMsg sg).data.head? = some 'S' :=
    headQAppend _ _ _ (headQAppend _ _ _ rfl)
  rw [hL, hR] at h2
  exact absurd h2 (by decide)

/-- C2: a referenced security-group id absent from inventory is claimed
to always become a violation with `validate` returning normally with a
false outcome; in `validate_plan.py`, however, `AWSApi.get_security_group`
raises `SubnetNotFoundError` for a missing group while the caller only
catches `SecurityGroupNotFoundError`, so the fault escapes `validate`.
This theorem evaluates the embedded standalone validator at that
failing input and shows the escaping fault. -/
theorem missing_sg_escapes_validate :
    vpValidate invSgMissing [changeSgMissing] =
      Except.error (Fault.subnetNotFound "sg1") := rfl

/-- C5: with an empty supported-version set the Version Rule appends
exactly the retrieval-failure violation and performs no membership
check; the invalid-version violation (a provably different string, for
every supported list) is never emitted. -/
theorem versionRule_empty_set (inv : Inventory) (kv : String)
    (errors : List String) (h : inv.getKafkaVersions = []) :
    validateKafkaVersion inv kv errors = errors ++ [couldNotRetrieveKafkaMsg] ∧
    ∀ vs : List String, invalidKafkaVersionMsg kv vs ≠ couldNotRetrieveKafkaMsg := by
  refine ⟨?_, fun vs => invalidMsg_ne_couldNot kv vs⟩
  simp [validateKafkaVersion, h]

/-- An inventory whose supported-version enumeration came back empty,
although the proposed version 2.8.1 would otherwise be valid elsewhere. -/
def invEmptyVersions : Inventory where
  getSubnets := fun _ => []
  getSecurityGroups := fun _ => []
  getKafkaVersions := []
  getSubnet := fun _ => none
  getSecurityGroup := fun _ => none

/-- Witness for C5 at a concrete inventory and version. -/
theorem versionRule_empty_set_w :
    validateKafkaVersion invEmptyVersions "2.8.1" [] = [couldNotRetrieveKafkaMsg] ∧
    invalidKafkaVersionMsg "2.8.1" ["2.8.1", "3.6.0"] ≠ couldNotRetrieveKafkaMsg := by
  have h := versionRule_empty_set invEmptyVersions "2.8.1" [] rfl
  exact ⟨by simpa using h.1, h.2 ["2.8.1", "3.6.0"]⟩

/-- C8: with a non-empty supported-version set, a proposed version not
in the set appends exactly one violation, built from the proposed
version and the comma-join of the supported versions in enumeration
order; a member version appends nothing. -/
theorem versionRule_nonempty_membership (inv : Inventory) (kv : String)
    (errors : List String) (hne : inv.getKafkaVersions ≠ []) :
    (kv ∉ inv.getKafkaVersions →
      validateKafkaVersion inv kv errors =
        errors ++ [invalidKafkaVersionMsg kv inv.getKafkaVersions]) ∧
    (kv ∈ inv.getKafkaVersions → validateKafkaVersion inv kv errors = errors) ∧
    invalidKafkaVersionMsg kv inv.getKafkaVersions =
      invalidVersionPart1 ++ kv ++ invalidVersionPart2 ++
        String.intercalate ", " inv.getKafkaVersions := by
  refine ⟨?_, ?_, rfl⟩
  · intro hnm
    simp [validateKafkaVersion, hne, hnm]
  · intro hm
    simp [validateKafkaVersion, hne, hm]

/-- An inventory supporting exactly the versions 2.8.1 and 3.6.0. -/
def invTwoVersions : Inventory where
  getSubnets := fun _ => []
  getSecurityGroups := fun _ => []
  getKafkaVersions := ["2.8.1", "3.6.0"]
  getSubnet := fun _ => none
  getSecurityGroup := fun _ => none

/-- Witness for C8: the invalid proposed version 99.99.99 yields exactly
the one violation listing both supported versions, and the valid
proposed version 2.8.1 yields none. -/
theorem versionRule_nonempty_membership_w :
    validateKafkaVersion invTwoVersions "99.99.99" [] =
      [invalidKafkaVersionMsg "99.99.99" ["2.8.1", "3.6.0"]] ∧
    validateKafkaVersion invTwoVersions "2.8.1" [] = [] := by
  have h1 := (versionRule_nonempty_membership invTwoVersions "99.99.99" []
    (by decide)).1 (by decide)
  have h2 := (versionRule_nonempty_membership invTwoVersions "2.8.1" []
    (by decide)).2.1 (by decide)
  exact ⟨by simpa using h1, h2⟩

/-- C6: for a single matching change with fewer than 3 subnets and a
valid proposed version against a non-empty supported set, the run is
invalid and the report is exactly the subnet-count violation; the
security-group rule does not run, so no security-group violation
appears whatever `getSecurityGroups` would have answered. -/
theorem subnetCount_sole_violation (inv : Inventory) (rc : ResourceChange)
    (d : ChangeDetail) (a : After) (bi : BrokerInfo) (rest : List BrokerInfo)
    (h1 : rc.rtype = "aws_msk_cluster") (h2 : rc.change = some d)
    (h3 : actionCreate ∈ d.actions) (h4 : d.after = some a)
    (h5 : a.brokerNodeGroupInfo = bi :: rest)
    (h6 : bi.clientSubnets.length < 3)
    (h7 : inv.getKafkaVersions ≠ [])
    (h8 : a.kafkaVersion ∈ inv.getKafkaVersions) :
    hooksValidate inv [rc] = Except.ok (false, [subnetCountMsg]) := by
  have hfilter : mskInstanceUpdates [rc] = [rc] := by
    simp [mskInstanceUpdates, isMskCreate, h1, h2, h3]
  have hkv : validateKafkaVersion inv a.kafkaVersion [] = [] := by
    simp [validateKafkaVersion, h7, h8]
  have hsub : validateSubnets inv bi.clientSubnets [] =
      Except.ok ([subnetCountMsg], none) := by
    simp [validateSubnets, h6]
  simp [hooksValidate, hfilter, hooksValidateLoop, h2, h4, hooksProcessChange,
    h5, hkv, hsub]

/-- A single create change for an `aws_msk_cluster` with only two
subnets and a security group that would be invalid if checked. -/
def changeTwoSubnets : ResourceChange where
  rtype := "aws_msk_cluster"
  change := some
    { actions := ["create"]
      after := some
        { kafkaVersion := "2.8.1"
          brokerNodeGroupInfo := [{ clientSubnets := ["subnet-a", "subnet-b"]
                                    securityGroups := ["sg-bad"] }] } }

/-- Witness for C6 at a concrete inventory and plan. -/
theorem subnetCount_sole_violation_w :
    hooksValidate invTwoVersions [changeTwoSubnets] =
      Except.ok (false, [subnetCountMsg]) :=
  subnetCount_sole_violation invTwoVersions changeTwoSubnets _ _ _ _
    rfl rfl (by decide) rfl rfl (by decide) (by decide) (by decide)

/-- An inventory in which subnets s1 and s2 resolve (s2 without a VPC
id) while s3 does not exist. -/
def invPartialMissing : Inventory where
  getSubnets := fun _ => [{ subnetId := some "s1", vpcId := some "vpc-1" },
                          { subnetId := some "s2", vpcId := none }]
  getSecurityGroups := fun _ => []
  getKafkaVersions := ["2.8.1"]
  getSubnet := fun _ => none
  getSecurityGroup := fun _ => none

/-- Counterexample to C3: with requested subnets s1, s2, s3 of which
only s3 is missing, the claim predicts the per-record violation
`vpcNotFoundSubnetMsg "s2"` for the resolved record without a VPC id and
the common VPC id vpc-1 of the resolved records as return value; the
hooks rule instead stops right after the aggregated missing-ids
violation — the report holds only that violation and the returned VPC id
is absent. -/
theorem subnets_partial_missing_cex :
    validateSubnets invPartialMissing ["s1", "s2", "s3"] [] =
      Except.ok ([subnetsNotFoundMsg ["s3"]], none) ∧
    vpcNotFoundSubnetMsg "s2" ∉ [subnetsNotFoundMsg ["s3"]] :=
  ⟨rfl, by decide⟩

/-- C3 amended: when some requested subnet ids (at least 3 requested)
are absent from the inventory response, the hooks Subnet Rule emits the
one violation listing the missing ids and returns absent immediately,
skipping the per-record missing-VPC-id checks, the same-VPC check, and
VPC-id resolution — so the Security-Group Rule does not run. -/
theorem subnets_missing_early_return (inv : Inventory) (subs : List String)
    (errors : List String) (h3 : 3 ≤ subs.length)
    (hm : pySetDiff subs ((inv.getSubnets subs).map SubnetRec.subnetId) ≠ []) :
    validateSubnets inv subs errors =
      Except.ok (errors ++ [subnetsNotFoundMsg
        (pySetDiff subs ((inv.getSubnets subs).map SubnetRec.subnetId))], none) := by
  unfold validateSubnets
  rw [if_neg (by omega : ¬ subs.length < 3), if_pos hm]

/-- Witness for the amended C3 at a concrete inventory. -/
theorem subnets_missing_early_return_w :
    validateSubnets invPartialMissing ["s1", "s2", "s3"] [] =
      Except.ok ([] ++ [subnetsNotFoundMsg (pySetDiff ["s1", "s2", "s3"]
        ((invPartialMissing.getSubnets ["s1", "s2", "s3"]).map SubnetRec.subnetId))],
        none) :=
  subnets_missing_early_return invPartialMissing ["s1", "s2", "s3"] []
    (by decide) (by decide)

/-- An inventory whose only security-group record lacks the VPC
attribute (batched and per-id lookups agree on it). -/
def invSgNoVpc : Inventory where
  getSubnets := fun _ => []
  getSecurityGroups := fun _ => [{ groupId := some "sg-1", vpcId := none }]
  getKafkaVersions := []
  getSubnet := fun _ => none
  getSecurityGroup := fun s => some { groupId := some s, vpcId := none }

/-- Counterexample to C4: in the hooks Security-Group Rule a resolved
record lacking the VPC attribute yields the cross-VPC mismatch
violation itself — `sg.get("VpcId") != vpc_id` is true for an absent
id — not a dedicated missing-VPC-attribute violation, refuting both
that such a record gets its own violation there and that the mismatch
violation is emitted only for a present differing id. -/
theorem sg_missing_vpc_cex :
    validateSecurityGroups invSgNoVpc ["sg-1"] "vpc-1" [] = [sgMismatchMsg "sg-1"] ∧
    vpcNotFoundSgMsg "sg-1" ∉ [sgMismatchMsg "sg-1"] :=
  ⟨rfl, by decide⟩

/-- C4 amended: only the standalone validator emits a distinct
missing-VPC-attribute violation for a resolved security-group record
lacking the VPC attribute, and emits the mismatch violation exactly for
a present differing id; the pipeline-hook validator emits the cross-VPC
mismatch violation itself for a record lacking the attribute.  The two
messages are provably different strings. -/
theorem sg_missing_vpc_by_variant (inv : Inventory) (sg vpc : String)
    (errors : List String) (rec : SGRec)
    (hb : inv.getSecurityGroups [sg] = [rec]) (hg : rec.groupId = some sg)
    (hrec : inv.getSecurityGroup sg = some rec) :
    (rec.vpcId = none →
      validateSecurityGroups inv [sg] vpc errors = errors ++ [sgMismatchMsg sg] ∧
      vpValidateSecurityGroups inv [sg] vpc errors =
        Except.ok (errors ++ [vpcNotFoundSgMsg sg])) ∧
    (∀ w, rec.vpcId = some w → w ≠ vpc →
      vpValidateSecurityGroups inv [sg] vpc errors =
        Except.ok (errors ++ [sgMismatchMsg sg])) ∧
    (∀ w, rec.vpcId = some w → w = vpc →
      vpValidateSecurityGroups inv [sg] vpc errors = Except.ok errors) ∧
    vpcNotFoundSgMsg sg ≠ sgMismatchMsg sg := by
  refine ⟨?_, ?_, ?_, vpcNotFoundSg_ne_mismatch sg⟩
  · intro hv
    constructor
    · simp [validateSecurityGroups, hb, hg, pySetDiff, pySet, insertUnique,
        sgStep, hv, pyOptStr]
    · simp [vpValidateSecurityGroups, hrec, hv]
  · intro w hw hne
    simp [vpValidateSecurityGroups, hrec, hw, hne]
  · intro w hw heq
    simp [vpValidateSecurityGroups, hrec, hw, heq]

/-- Witness for the amended C4 at a concrete inventory. -/
theorem sg_missing_vpc_by_variant_w :
    (validateSecurityGroups invSgNoVpc ["sg-1"] "vpc-1" [] =
        [] ++ [sgMismatchMsg "sg-1"] ∧
      vpValidateSecurityGroups invSgNoVpc ["sg-1"] "vpc-1" [] =
        Except.ok ([] ++ [vpcNotFoundSgMsg "sg-1"])) ∧
    vpcNotFoundSgMsg "sg-1" ≠ sgMismatchMsg "sg-1" := by
  have h := sg_missing_vpc_by_variant invSgNoVpc "sg-1" "vpc-1" []
    { groupId := some "sg-1", vpcId := none } rfl rfl rfl
  exact ⟨h.1 rfl, h.2.2.2⟩

/-- C10: the minimum-subnet check counts list elements, not distinct
subnets: one existing subnet id repeated three times passes the length
check, the requested-minus-returned set difference is empty, and both
subnet rules return that subnet record's VPC id with no violation. -/
theorem repeated_subnet_passes (inv : Inventory) (s v : String) (rec : SubnetRec)
    (errors : List String)
    (hb : inv.getSubnets [s, s, s] = [rec])
    (hid : rec.subnetId = some s) (hv : rec.vpcId = some v)
    (hp : inv.getSubnet s = some rec) :
    validateSubnets inv [s, s, s] errors = Except.ok (errors, some v) ∧
    vpValidateSubnets inv [s, s, s] errors = Except.ok (errors, some v) := by
  constructor
  · simp [validateSubnets, hb, hid, hv, pySetDiff, pySet, insertUnique,
      collectSubnetVpcIds, subnetStep, finishVpc]
  · simp [vpValidateSubnets, hp, hv, vpSubnetStep, insertUnique, finishVpc]

/-- An inventory holding the single subnet record s1 in vpc-9. -/
def invOneSubnet : Inventory where
  getSubnets := fun _ => [{ subnetId := some "s1", vpcId := some "vpc-9" }]
  getSecurityGroups := fun _ => []
  getKafkaVersions := []
  getSubnet := fun _ => some { subnetId := some "s1", vpcId := some "vpc-9" }
  getSecurityGroup := fun _ => none

/-- Witness for C10 at a concrete inventory. -/
theorem repeated_subnet_passes_w :
    validateSubnets invOneSubnet ["s1", "s1", "s1"] [] =
      Except.ok ([], some "vpc-9") ∧
    vpValidateSubnets invOneSubnet ["s1", "s1", "s1"] [] =
      Except.ok ([], some "vpc-9") :=
  repeated_subnet_passes invOneSubnet "s1" "vpc-9"
    { subnetId := some "s1", vpcId := some "vpc-9" } [] rfl rfl rfl rfl

/-- When every record of the batch carries a VPC id, the hooks subnet
loop appends no violation and collects exactly the distinct VPC ids. -/
theorem foldl_subnetStep_all_some (errs : List String) :
    ∀ (data : List SubnetRec), (∀ r ∈ data, (SubnetRec.vpcId r).isSome) →
    ∀ acc : List String,
      data.foldl subnetStep (errs, acc) =
        (errs, (data.filterMap SubnetRec.vpcId).foldl insertUnique acc)
  | [], _, acc => rfl
  | r :: rest, h, acc => by
    obtain ⟨v, hv⟩ := Option.isSome_iff_exists.mp (h r (List.mem_cons_self r rest))
    have h1 : subnetStep (errs, acc) r = (errs, insertUnique acc v) := by
      simp [subnetStep, hv]
    have h2 : (r :: rest).filterMap SubnetRec.vpcId =
        v :: rest.filterMap SubnetRec.vpcId := by simp [hv]
    rw [List.foldl_cons, h1, h2, List.foldl_cons]
    exact foldl_subnetStep_all_some errs rest
      (fun x hx => h x (List.mem_cons_of_mem r hx)) (insertUnique acc v)

/-- Specialisation of the previous lemma to the collection entry point. -/
theorem collect_all_some (data : List SubnetRec)
    (h : ∀ r ∈ data, (SubnetRec.vpcId r).isSome) (errors : List String) :
    collectSubnetVpcIds data errors = (errors, vpcIdsOf data) :=
  foldl_subnetStep_all_some errors data h []

/-- C7: when at least 3 subnets all resolve into records carrying VPC
ids, with more than one distinct id among them, the hooks Subnet Rule
both appends the same-VPC violation and still returns a member of the
collected VPC-id set, and the change processing then invokes the
Security-Group Rule with exactly that id (the proposed version being
valid so that the version rule contributes nothing, and no collected id
being the empty string, which Python truthiness would drop). -/
theorem sameVpc_still_returns (inv : Inventory) (a : After) (bi : BrokerInfo)
    (rest : List BrokerInfo) (errors : List String)
    (hbi : a.brokerNodeGroupInfo = bi :: rest)
    (h3 : 3 ≤ bi.clientSubnets.length)
    (hmiss : pySetDiff bi.clientSubnets
      ((inv.getSubnets bi.clientSubnets).map SubnetRec.subnetId) = [])
    (hall : ∀ r ∈ inv.getSubnets bi.clientSubnets, (SubnetRec.vpcId r).isSome)
    (hgt : 1 < (vpcIdsOf (inv.getSubnets bi.clientSubnets)).length)
    (hnb : "" ∉ vpcIdsOf (inv.getSubnets bi.clientSubnets))
    (hv1 : inv.getKafkaVersions ≠ [])
    (hv2 : a.kafkaVersion ∈ inv.getKafkaVersions) :
    ∃ v, v ∈ vpcIdsOf (inv.getSubnets bi.clientSubnets) ∧
      validateSubnets inv bi.clientSubnets errors =
        Except.ok (errors ++ [sameVpcMsg], some v) ∧
      hooksProcessChange inv a errors =
        Except.ok (validateSecurityGroups inv bi.securityGroups v
          (errors ++ [sameVpcMsg])) := by
  cases hids : vpcIdsOf (inv.getSubnets bi.clientSubnets) with
  | nil => rw [hids] at hgt; simp at hgt
  | cons v t =>
    have hsub : validateSubnets inv bi.clientSubnets errors =
        Except.ok (errors ++ [sameVpcMsg], some v) := by
      unfold validateSubnets
      rw [if_neg (by omega : ¬ bi.clientSubnets.length < 3),
        if_neg (fun hc => hc hmiss), collect_all_some _ hall, hids]
      have hl : 1 < (v :: t).length := by rw [hids] at hgt; exact hgt
      have ht : t ≠ [] := by
        intro h0
        rw [h0] at hl
        simp at hl
      simp [finishVpc, hl, ht]
    have hkv : validateKafkaVersion inv a.kafkaVersion errors = errors := by
      simp [validateKafkaVersion, hv1, hv2]
    have hvne : v ≠ "" := by
      intro hveq
      rw [hids] at hnb
      subst hveq
      exact hnb (List.mem_cons_self _ t)
    have hproc : hooksProcessChange inv a errors =
        Except.ok (validateSecurityGroups inv bi.securityGroups v
          (errors ++ [sameVpcMsg])) := by
      simp [hooksProcessChange, hbi, hkv, hsub, hvne]
    exact ⟨v, List.mem_cons_self v t, hsub, hproc⟩

/-- An inventory in which s1 resolves into vpc-1, any other subnet into
vpc-2, and the only security group into vpc-1. -/
def invTwoVpcs : Inventory where
  getSubnets := fun ids => ids.map (fun i =>
    { subnetId := some i, vpcId := some (if i = "s1" then "vpc-1" else "vpc-2") })
  getSecurityGroups := fun _ => [{ groupId := some "sg-1", vpcId := some "vpc-1" }]
  getKafkaVersions := ["2.8.1"]
  getSubnet := fun _ => none
  getSecurityGroup := fun _ => none

/-- The `after` snapshot of a create change with subnets s1, s2, s3 and
security group sg-1 on version 2.8.1. -/
def afterTwoVpcs : After where
  kafkaVersion := "2.8.1"
  brokerNodeGroupInfo := [{ clientSubnets := ["s1", "s2", "s3"]
                            securityGroups := ["sg-1"] }]

/-- Witness for C7 at a concrete inventory whose subnets span vpc-1 and
vpc-2. -/
theorem sameVpc_still_returns_w :
    ∃ v, v ∈ vpcIdsOf (invTwoVpcs.getSubnets ["s1", "s2", "s3"]) ∧
      validateSubnets invTwoVpcs ["s1", "s2", "s3"] [] =
        Except.ok ([] ++ [sameVpcMsg], some v) ∧
      hooksProcessChange invTwoVpcs afterTwoVpcs [] =
        Except.ok (validateSecurityGroups invTwoVpcs ["sg-1"] v
          ([] ++ [sameVpcMsg])) :=
  sameVpc_still_returns invTwoVpcs afterTwoVpcs
    { clientSubnets := ["s1", "s2", "s3"], securityGroups := ["sg-1"] } [] []
    rfl (by decide) (by decide) (by decide) (by decide) (by decide)
    (by decide) (by decide)

/-- Membership in the set-insertion helper. -/
theorem mem_insertUnique {l : List String} {v x : String} :
    x ∈ insertUnique l v ↔ x ∈ l ∨ x = v := by
  by_cases h : v ∈ l
  · simp only [insertUnique, if_pos h]
    exact ⟨Or.inl, fun hx => hx.elim id (fun he => he ▸ h)⟩
  · simp [insertUnique, if_neg h]

/-- Membership in a fold of set insertions. -/
theorem mem_foldl_insertUnique : ∀ (l acc : List String) (x : String),
    x ∈ l.foldl insertUnique acc ↔ x ∈ acc ∨ x ∈ l
  | [], acc, x => by simp
  | a :: l, acc, x => by
    rw [List.foldl_cons, mem_foldl_insertUnique l (insertUnique acc a) x,
      mem_insertUnique]
    simp only [List.mem_cons]
    tauto

/-- Membership in the Python-set model is membership in the source
list. -/
theorem mem_pySet {l : List String} {x : String} : x ∈ pySet l ↔ x ∈ l := by
  rw [pySet, mem_foldl_insertUnique]
  simp

/-- The requested-minus-returned difference is empty when every
requested id appears among the returned ones. -/
theorem pySetDiff_eq_nil {req : List String} {ret : List (Option String)}
    (H : ∀ s ∈ req, some s ∈ ret) : pySetDiff req ret = [] := by
  unfold pySetDiff
  rw [List.filter_eq_nil_iff]
  intro a ha
  simp only [decide_eq_true_eq, Decidable.not_not]
  exact H a (mem_pySet.mp ha)

/-- When every requested subnet resolves to a record with a VPC id, the
hooks batch loop and the standalone per-id loop compute the same error
list and VPC-id set. -/
theorem subnet_fold_equiv (inv : Inventory) (f : String → SubnetRec) :
    ∀ (subs : List String), (∀ s ∈ subs, (f s).subnetId = some s ∧
        ((f s).vpcId).isSome ∧ inv.getSubnet s = some (f s)) →
    ∀ acc : List String × List String,
      (subs.map f).foldl subnetStep acc = subs.foldl (vpSubnetStep inv) acc
  | [], _, acc => rfl
  | s :: rest, h, acc => by
    obtain ⟨hid, hsome, hget⟩ := h s (List.mem_cons_self s rest)
    obtain ⟨v, hv⟩ := Option.isSome_iff_exists.mp hsome
    have h1 : subnetStep acc (f s) = (acc.1, insertUnique acc.2 v) := by
      simp [subnetStep, hv]
    have h2 : vpSubnetStep inv acc s = (acc.1, insertUnique acc.2 v) := by
      simp [vpSubnetStep, hget, hv]
    rw [List.map_cons, List.foldl_cons, List.foldl_cons, h1, h2]
    exact subnet_fold_equiv inv f rest
      (fun x hx => h x (List.mem_cons_of_mem s hx)) _

/-- Under the same resolution hypotheses the two subnet rules agree. -/
theorem validateSubnets_equiv (inv : Inventory) (f : String → SubnetRec)
    (subs : List String)
    (hb : inv.getSubnets subs = subs.map f)
    (h : ∀ s ∈ subs, (f s).subnetId = some s ∧ ((f s).vpcId).isSome ∧
      inv.getSubnet s = some (f s)) (errors : List String) :
    validateSubnets inv subs errors = vpValidateSubnets inv subs errors := by
  unfold validateSubnets vpValidateSubnets
  by_cases h3 : subs.length < 3
  · rw [if_pos h3, if_pos h3]
  · rw [if_neg h3, if_neg h3]
    have hmiss : pySetDiff subs
        ((inv.getSubnets subs).map SubnetRec.subnetId) = [] := by
      apply pySetDiff_eq_nil
      intro s hs
      rw [hb, List.map_map]
      exact List.mem_map.mpr ⟨s, hs, (h s hs).1⟩
    rw [if_neg (fun hc => hc hmiss)]
    unfold collectSubnetVpcIds
    rw [hb, subnet_fold_equiv inv f subs h (errors, [])]

/-- When every requested security group resolves to a record with a VPC
id, the standalone rule returns normally with exactly the error list the
hooks per-record loop computes. -/
theorem sg_fold_equiv (inv : Inventory) (g : String → SGRec) (vpc : String) :
    ∀ (sgs : List String), (∀ s ∈ sgs, (g s).groupId = some s ∧
      ((g s).vpcId).isSome ∧ inv.getSecurityGroup s = some (g s)) →
    ∀ errors : List String,
      vpValidateSecurityGroups inv sgs vpc errors =
        Except.ok ((sgs.map g).foldl (sgStep vpc) errors)
  | [], _, errors => rfl
  | s :: rest, h, errors => by
    obtain ⟨hid, hsome, hget⟩ := h s (List.mem_cons_self s rest)
    obtain ⟨w, hw⟩ := Option.isSome_iff_exists.mp hsome
    have hrest := fun x hx => h x (List.mem_cons_of_mem s hx)
    rw [List.map_cons, List.foldl_cons]
    by_cases hne : w = vpc
    · have h1 : sgStep vpc errors (g s) = errors := by simp [sgStep, hw, hne]
      have h2 : vpValidateSecurityGroups inv (s :: rest) vpc errors =
          vpValidateSecurityGroups inv rest vpc errors := by
        simp [vpValidateSecurityGroups, hget, hw, hne]
      rw [h1, h2]
      exact sg_fold_equiv inv g vpc rest hrest errors
    · have h1 : sgStep vpc errors (g s) = errors ++ [sgMismatchMsg s] := by
        simp [sgStep, hw, hne, hid, pyOptStr]
      have h2 : vpValidateSecurityGroups inv (s :: rest) vpc errors =
          vpValidateSecurityGroups inv rest vpc (errors ++ [sgMismatchMsg s]) := by
        simp [vpValidateSecurityGroups, hget, hw, hne]
      rw [h1, h2]
      exact sg_fold_equiv inv g vpc rest hrest (errors ++ [sgMismatchMsg s])

/-- Under the same resolution hypotheses the two security-group rules
agree. -/
theorem validateSecurityGroups_equiv (inv : Inventory) (g : String → SGRec)
    (sgs : List String) (vpc : String)
    (hb : inv.getSecurityGroups sgs = sgs.map g)
    (h : ∀ s ∈ sgs, (g s).groupId = some s ∧ ((g s).vpcId).isSome ∧
      inv.getSecurityGroup s = some (g s)) (errors : List String) :
    vpValidateSecurityGroups inv sgs vpc errors =
      Except.ok (validateSecurityGroups inv sgs vpc errors) := by
  have hmiss : pySetDiff sgs ((inv.getSecurityGroups sgs).map SGRec.groupId) = [] := by
    apply pySetDiff_eq_nil
    intro s hs
    rw [hb, List.map_map]
    exact List.mem_map.mpr ⟨s, hs, (h s hs).1⟩
  unfold validateSecurityGroups
  rw [if_neg (fun hc => hc hmiss), hb]
  exact sg_fold_equiv inv g vpc sgs h errors

/-- Resolution hypotheses for one broker placement: each referenced
subnet and security-group id resolves — consistently for the batched and
the per-id lookup — to a record naming that id and carrying a VPC id. -/
def BrokerResolved (inv : Inventory) (f : String → SubnetRec)
    (g : String → SGRec) (bi : BrokerInfo) : Prop :=
  inv.getSubnets bi.clientSubnets = bi.clientSubnets.map f ∧
  (∀ s ∈ bi.clientSubnets, (f s).subnetId = some s ∧ ((f s).vpcId).isSome ∧
    inv.getSubnet s = some (f s)) ∧
  inv.getSecurityGroups bi.securityGroups = bi.securityGroups.map g ∧
  (∀ s ∈ bi.securityGroups, (g s).groupId = some s ∧ ((g s).vpcId).isSome ∧
    inv.getSecurityGroup s = some (g s))

/-- Under resolution hypotheses and a valid proposed version, processing
one change is identical in the two validators. -/
theorem processChange_equiv (inv : Inventory) (f : String → SubnetRec)
    (g : String → SGRec) (a : After) (errors : List String)
    (hv1 : inv.getKafkaVersions ≠ [])
    (hv2 : a.kafkaVersion ∈ inv.getKafkaVersions)
    (H : ∀ bi rest, a.brokerNodeGroupInfo = bi :: rest →
      BrokerResolved inv f g bi) :
    hooksProcessChange inv a errors = vpProcessChange inv a errors := by
  unfold hooksProcessChange vpProcessChange
  cases hbi : a.brokerNodeGroupInfo with
  | nil => rfl
  | cons bi rest =>
    have hkv : validateKafkaVersion inv a.kafkaVersion errors = errors := by
      simp [validateKafkaVersion, hv1, hv2]
    obtain ⟨hbs, hs, hbg, hg⟩ := H bi rest hbi
    dsimp only
    rw [hkv, validateSubnets_equiv inv f bi.clientSubnets hbs hs errors]
    cases hres : vpValidateSubnets inv bi.clientSubnets errors with
    | error e => rfl
    | ok p =>
      obtain ⟨errors2, vopt⟩ := p
      cases vopt with
      | none => rfl
      | some v =>
        dsimp only
        by_cases hveq : v = ""
        · rw [if_pos hveq, if_pos hveq]
        · rw [if_neg hveq, if_neg hveq]
          exact (validateSecurityGroups_equiv inv g bi.securityGroups v
            hbg hg errors2).symm

/-- Under per-change resolution hypotheses, the two change loops agree
on the whole accumulated state. -/
theorem loop_equiv (inv : Inventory) (f : String → SubnetRec)
    (g : String → SGRec) (hv1 : inv.getKafkaVersions ≠ []) :
    ∀ (changes : List ResourceChange),
    (∀ rc ∈ changes, ∀ d, rc.change = some d → ∀ a, d.after = some a →
      a.kafkaVersion ∈ inv.getKafkaVersions ∧
      ∀ bi rest, a.brokerNodeGroupInfo = bi :: rest →
        BrokerResolved inv f g bi) →
    ∀ errors : List String,
      hooksValidateLoop inv changes errors = vpValidateLoop inv changes errors
  | [], _, errors => rfl
  | rc :: rest, H, errors => by
    have Hrest := fun x hx => H x (List.mem_cons_of_mem rc hx)
    unfold hooksValidateLoop vpValidateLoop
    cases hd : rc.change with
    | none =>
      dsimp only
      exact loop_equiv inv f g hv1 rest Hrest errors
    | some d =>
      dsimp only
      cases ha : d.after with
      | none =>
        dsimp only
        exact loop_equiv inv f g hv1 rest Hrest errors
      | some a =>
        obtain ⟨hv2, Hbi⟩ := H rc (List.mem_cons_self rc rest) d hd a ha
        dsimp only
        rw [processChange_equiv inv f g a errors hv1 hv2 Hbi]
        cases vpProcessChange inv a errors with
        | error e => rfl
        | ok errors1 => exact loop_equiv inv f g hv1 rest Hrest errors1

/-- C9: for every plan and inventory in which, for each matching
create change, every referenced subnet and security-group id resolves
(consistently across the batched and per-id lookups) to a record
carrying a VPC id and the proposed version is a member of the non-empty
supported set, the pipeline-hook validator and the standalone validator
compute the same outcome from `validate` — in fact the same pass/fail
boolean and the same report, including identical fault behaviour. -/
theorem validators_agree (inv : Inventory) (f : String → SubnetRec)
    (g : String → SGRec) (plan : List ResourceChange)
    (hv1 : inv.getKafkaVersions ≠ [])
    (H : ∀ rc ∈ plan, isMskCreate rc = true →
      ∀ d, rc.change = some d → ∀ a, d.after = some a →
      a.kafkaVersion ∈ inv.getKafkaVersions ∧
      ∀ bi rest, a.brokerNodeGroupInfo = bi :: rest →
        BrokerResolved inv f g bi) :
    hooksValidate inv plan = vpValidate inv plan := by
  unfold hooksValidate vpValidate
  rw [loop_equiv inv f g hv1 (mskInstanceUpdates plan)
    (fun rc hrc => H rc (List.mem_of_mem_filter hrc) (List.of_mem_filter hrc)) []]

/-- A subnet-record table placing every subnet in vpc-123. -/
def fRes : String → SubnetRec :=
  fun s => { subnetId := some s, vpcId := some "vpc-123" }

/-- A security-group-record table placing every group in vpc-123. -/
def gRes : String → SGRec :=
  fun s => { groupId := some s, vpcId := some "vpc-123" }

/-- An inventory in which everything resolves consistently for batched
and per-id lookups, all in vpc-123. -/
def invResolved : Inventory where
  getSubnets := fun ids => ids.map fRes
  getSecurityGroups := fun ids => ids.map gRes
  getKafkaVersions := ["2.8.1", "3.6.0"]
  getSubnet := fun s => some (fRes s)
  getSecurityGroup := fun s => some (gRes s)

/-- A single create change with three subnets, one security group and
the supported version 2.8.1. -/
def changeThreeSubnets : ResourceChange where
  rtype := "aws_msk_cluster"
  change := some
    { actions := ["create"]
      after := some
        { kafkaVersion := "2.8.1"
          brokerNodeGroupInfo := [{ clientSubnets := ["s1", "s2", "s3"]
                                    securityGroups := ["sg1"] }] } }

/-- Witness for C9 at a concrete fully-resolving inventory and plan. -/
theorem validators_agree_w :
    hooksValidate invResolved [changeThreeSubnets] =
      vpValidate invResolved [changeThreeSubnets] := by
  apply validators_agree invResolved fRes gRes [changeThreeSubnets] (by decide)
  intro rc hrc hmsk d hd a ha
  simp only [List.mem_singleton] at hrc
  subst hrc
  cases hd
  cases ha
  refine ⟨by decide, ?_⟩
  intro bi rest hbi
  simp only [changeThreeSubnets, List.cons.injEq] at hbi
  obtain ⟨hbi1, hbi2⟩ := hbi
  subst hbi1
  exact ⟨rfl, by decide, rfl, by decide⟩

example : hooksValidate invResolved [changeThreeSubnets] = Except.ok (true, []) := rfl

/-- An inventory whose security groups all live in vpc-456 while the
subnets live in vpc-123, mirroring the wrong-VPC repository test. -/
def invSgWrongVpc : Inventory where
  getSubnets := fun ids => ids.map fRes
  getSecurityGroups := fun ids =>
    ids.map (fun s => { groupId := some s, vpcId := some "vpc-456" })
  getKafkaVersions := ["2.8.1"]
  getSubnet := fun s => some (fRes s)
  getSecurityGroup := fun s => some { groupId := some s, vpcId := some "vpc-456" }

example : hooksValidate invSgWrongVpc [changeThreeSubnets] =
    Except.ok (false, [sgMismatchMsg "sg1"]) := rfl
